import Mathlib

/-!
Verification of the repository's specification.

The repository ships one Python source file (the home-automation menu
simulator with its Singleton managers, SecuritySystem and VoiceControl);
the chess move-rule engine the specification describes is not among the
shipped sources, so its data model and operations are modelled here
directly from the specification's component design, while the
home-automation parts are translated from `src/main.py`.
-/

namespace Chess

/-- Modelled from the spec: a Position is a pair of integers (rank, file);
the chess engine source file is missing from the repository, so the data
model follows spec section 3. -/
abbrev Position := Int × Int

/-- Modelled from the spec: PositionValidator.in_range, true iff both
coordinates lie in [1,8] inclusive (spec section 4.1); the chess engine
source file is missing from the repository. -/
def in_range (p : Position) : Bool :=
  decide (1 ≤ p.1) && decide (p.1 ≤ 8) && decide (1 ≤ p.2) && decide (p.2 ≤ 8)

/-- Modelled from the spec: the Color enumeration (spec section 3). -/
inductive Color
  | White
  | Black
deriving DecidableEq, Repr

/-- Modelled from the spec: the PieceKind enumeration (spec section 3). -/
inductive PieceKind
  | Pawn
  | Knight
  | Bishop
  | Rook
  | Queen
  | King
deriving DecidableEq, Repr

/-- Modelled from the spec: the Knight's 8 offsets (±2,±1) and (±1,±2)
(spec section 4.2). -/
def knightOffsets : List (Int × Int) :=
  [(2,1), (2,-1), (-2,1), (-2,-1), (1,2), (1,-2), (-1,2), (-1,-2)]

/-- Modelled from the spec: the King's 8 unit-offset neighbors
(spec section 4.2). -/
def kingOffsets : List (Int × Int) :=
  [(1,0), (-1,0), (0,1), (0,-1), (1,1), (1,-1), (-1,1), (-1,-1)]

/-- Modelled from the spec: Rook generation — for step i = 1..7 the 4
straight points (x±i, y) and (x, y±i), with no blocker logic
(spec section 4.2). -/
def rookRaw (p : Position) : List Position :=
  (List.range 7).flatMap (fun i =>
    let k : Int := (i : Int) + 1
    [(p.1 + k, p.2), (p.1 - k, p.2), (p.1, p.2 + k), (p.1, p.2 - k)])

/-- Modelled from the spec: Bishop generation — for step i = 1..7 the 4
diagonal points (x±i, y±i), with no blocker logic (spec section 4.2). -/
def bishopRaw (p : Position) : List Position :=
  (List.range 7).flatMap (fun i =>
    let k : Int := (i : Int) + 1
    [(p.1 + k, p.2 + k), (p.1 + k, p.2 - k), (p.1 - k, p.2 + k), (p.1 - k, p.2 - k)])

/-- Modelled from the spec: the Pawn's forward direction, White toward
increasing rank, Black toward decreasing rank (spec section 4.2). -/
def pawnDir : Color → Int
  | .White => 1
  | .Black => -1

/-- Modelled from the spec: the Pawn's starting rank, 2 for White and 7
for Black (spec section 4.2). -/
def pawnStartRank : Color → Int
  | .White => 2
  | .Black => 7

/-- Modelled from the spec: Pawn generation — one forward square in the
color's direction, plus a two-square forward candidate when the pawn is on
its starting rank; no diagonal captures (spec section 4.2). -/
def pawnRaw (c : Color) (p : Position) : List Position :=
  (p.1 + pawnDir c, p.2) ::
    (if p.1 = pawnStartRank c then [(p.1 + 2 * pawnDir c, p.2)] else [])

/-- Modelled from the spec: per-kind geometric candidate generation before
bounds filtering (spec section 4.2); Queen is the union of Rook's and
Bishop's sets. -/
def rawMoves (k : PieceKind) (c : Color) (p : Position) : List Position :=
  match k with
  | .Knight => knightOffsets.map (fun o => (p.1 + o.1, p.2 + o.2))
  | .King => kingOffsets.map (fun o => (p.1 + o.1, p.2 + o.2))
  | .Rook => rookRaw p
  | .Bishop => bishopRaw p
  | .Queen => rookRaw p ++ bishopRaw p
  | .Pawn => pawnRaw c p

/-- Modelled from the spec: MoveRule.candidate_moves — the per-kind
generation with all results filtered through PositionValidator, dropping
out-of-board candidates silently (spec section 4.2). -/
def candidate_moves (k : PieceKind) (c : Color) (p : Position) : List Position :=
  (rawMoves k c p).filter in_range

/-- Modelled from the spec: the error taxonomy of spec section 7, plus the
Board-level NoPieceAtSource. -/
inductive MoveError
  | PositionOutOfRange
  | IllegalMove
  | NoPieceAtSource
deriving DecidableEq, Repr

/-- Modelled from the spec: a Piece carries kind, color, position,
move_count and its owned MoveRule; the rule's internal position is the
`rulePos` field (spec section 3). -/
structure Piece where
  kind : PieceKind
  color : Color
  position : Position
  move_count : Nat
  rulePos : Position
deriving DecidableEq, Repr

/-- Modelled from the spec: Piece.move(new_position) — reject with
PositionOutOfRange when out of bounds, reject with IllegalMove when not in
the candidate set computed from the rule at the current position, else set
position, increment move_count, and resynchronize the rule's position
(spec section 4.3). -/
def Piece.move (pc : Piece) (newPos : Position) : Except MoveError Piece :=
  if in_range newPos = false then
    .error .PositionOutOfRange
  else if newPos ∈ candidate_moves pc.kind pc.color pc.rulePos then
    .ok { pc with position := newPos, move_count := pc.move_count + 1, rulePos := newPos }
  else
    .error .IllegalMove

/-- Modelled from the spec: the Board is a mapping from Position to Piece
(spec section 3), represented as an association list with set semantics on
keys. -/
abbrev Board := List (Position × Piece)

/-- Modelled from the spec: lookup of the piece mapped at a position. -/
def boardFind (b : Board) (pos : Position) : Option Piece :=
  (b.find? (fun e => decide (e.1 = pos))).map Prod.snd

/-- Modelled from the spec: removal of a position's entry from the board
mapping. -/
def boardErase (b : Board) (pos : Position) : Board :=
  b.filter (fun e => decide (e.1 ≠ pos))

/-- Modelled from the spec: insertion at a position, unconditionally
overwriting any existing entry there (spec section 4.4). -/
def boardInsert (b : Board) (pos : Position) (pc : Piece) : Board :=
  (pos, pc) :: boardErase b pos

/-- Modelled from the spec: Board.move_piece(from, to) — NoPieceAtSource
when from has no entry; otherwise delegate to Piece.move, propagating its
error with the board unmodified, and on success remove the from entry and
insert the moved piece at to (spec section 4.4). The mutation is modelled
by explicit state passing: the returned board is the post-call mapping. -/
def move_piece (b : Board) (src dst : Position) : Board × Option MoveError :=
  match boardFind b src with
  | none => (b, some .NoPieceAtSource)
  | some pc =>
    match pc.move dst with
    | .error e => (b, some e)
    | .ok pc' => (boardInsert (boardErase b src) dst pc', none)

/-- Modelled from the spec: ordering of positions, ascending rank then
file, used by enumerate (spec section 4.4). -/
def posLe (p q : Position) : Bool :=
  decide (p.1 < q.1) || (decide (p.1 = q.1) && decide (p.2 ≤ q.2))

/-- Modelled from the spec: insertion step for the sorted enumeration. -/
def enumInsert (e : Position × Piece) : List (Position × Piece) → List (Position × Piece)
  | [] => [e]
  | f :: t => if posLe e.1 f.1 then e :: f :: t else f :: enumInsert e t

/-- Modelled from the spec: Board.enumerate — the (Position, Piece) pairs
ordered by position, ascending rank then file (spec section 4.4). -/
def enumerate (b : Board) : List (Position × Piece) :=
  b.foldr enumInsert []

/-- Modelled from the spec: a freshly created piece, move_count 0, rule
position synchronized (spec section 3). -/
def mkPiece (k : PieceKind) (c : Color) (pos : Position) : Piece :=
  ⟨k, c, pos, 0, pos⟩

/-- Modelled from the spec: the back-rank order Rook, Knight, Bishop,
Queen, King, Bishop, Knight, Rook (spec section 3). -/
def backRank : List PieceKind :=
  [.Rook, .Knight, .Bishop, .Queen, .King, .Bishop, .Knight, .Rook]

/-- Modelled from the spec: one rank of the standard setup. -/
def rankEntries (rank : Int) (c : Color) (ks : List PieceKind) : Board :=
  (List.zip [(1:Int),2,3,4,5,6,7,8] ks).map
    (fun fk => ((rank, fk.1), mkPiece fk.2 c (rank, fk.1)))

/-- Modelled from the spec: Board.initialize_standard — 16 pawns on ranks
2 and 7, back ranks 1 and 8 in the standard order, White on ranks 1–2 and
Black on ranks 7–8 (spec section 3). -/
def standard_board : Board :=
  rankEntries 1 .White backRank ++
  rankEntries 2 .White (List.replicate 8 .Pawn) ++
  rankEntries 7 .Black (List.replicate 8 .Pawn) ++
  rankEntries 8 .Black backRank

end Chess

namespace Home

/-- The settings dictionary of `SettingsManager.__init__` in src/main.py:
default_temperature 72, default_brightness 50, security_armed False. -/
structure Settings where
  default_temperature : Int
  default_brightness : Int
  security_armed : Bool
deriving DecidableEq, Repr

/-- The default settings installed by `SettingsManager.__init__`. -/
def defaultSettings : Settings := ⟨72, 50, false⟩

/-- A `SettingsManager` instance: `settings = none` models the attribute
not yet set on a blank `__new__` object, `initialized` models
`hasattr(self, 'initialized')`. -/
structure SettingsManagerState where
  settings : Option Settings
  initialized : Bool
deriving DecidableEq, Repr

/-- The blank object produced by `object.__new__` before `__init__`. -/
def settingsManagerBlank : SettingsManagerState := ⟨none, false⟩

/-- `Singleton.__new__` for SettingsManager: return the stored class
instance when `hasattr(cls, '_instance')`, else create a blank one. -/
def settingsManagerNew (slot : Option SettingsManagerState) : SettingsManagerState :=
  slot.getD settingsManagerBlank

/-- `SettingsManager.__init__`: install the defaults only when the
instance is not yet initialized. -/
def settingsManagerInit (s : SettingsManagerState) : SettingsManagerState :=
  if s.initialized then s else ⟨some defaultSettings, true⟩

/-- Constructing `SettingsManager()`: `__new__` (creating and storing the
class instance when absent) followed by `__init__` on the returned object;
yields the updated `_instance` slot and the returned instance. -/
def settingsManagerCtor (slot : Option SettingsManagerState) :
    Option SettingsManagerState × SettingsManagerState :=
  let inst := settingsManagerInit (settingsManagerNew slot)
  (some inst, inst)

/-- An `EnergyManager` instance: `none` fields model attributes not yet
set, `initialized` models `hasattr(self, 'initialized')`. -/
structure EnergyManagerState where
  total_consumption : Option Int
  active_devices : Option (List String)
  initialized : Bool
deriving DecidableEq, Repr

/-- The blank object produced by `object.__new__` before `__init__`. -/
def energyManagerBlank : EnergyManagerState := ⟨none, none, false⟩

/-- `Singleton.__new__` for EnergyManager. -/
def energyManagerNew (slot : Option EnergyManagerState) : EnergyManagerState :=
  slot.getD energyManagerBlank

/-- `EnergyManager.__init__`: zero consumption and empty device set, only
when not yet initialized. -/
def energyManagerInit (s : EnergyManagerState) : EnergyManagerState :=
  if s.initialized then s else ⟨some 0, some [], true⟩

/-- Constructing `EnergyManager()`. -/
def energyManagerCtor (slot : Option EnergyManagerState) :
    Option EnergyManagerState × EnergyManagerState :=
  let inst := energyManagerInit (energyManagerNew slot)
  (some inst, inst)

/-- `SecuritySystem` state from src/main.py. -/
structure SecurityState where
  armed : Bool
  alarm_active : Bool
deriving DecidableEq, Repr

/-- `SecuritySystem.__init__`: armed False, alarm inactive. -/
def securityInit : SecurityState := ⟨false, false⟩

/-- `SecuritySystem.arm_system`. -/
def arm_system (s : SecurityState) : SecurityState × String :=
  ({ s with armed := true }, "Security system armed")

/-- `SecuritySystem.disarm_system`. -/
def disarm_system (_ : SecurityState) : SecurityState × String :=
  (⟨false, false⟩, "Security system disarmed")

/-- `SecuritySystem.trigger_alarm`. -/
def trigger_alarm (s : SecurityState) : SecurityState × String :=
  if s.armed then ({ s with alarm_active := true }, "ALARM TRIGGERED!")
  else (s, "System is not armed")

/-- `LightingSystem` state from src/main.py. -/
structure LightingState where
  brightness : Int
  is_on : Bool
deriving DecidableEq, Repr

/-- `LightingSystem.turn_on_lights`: reads the default brightness from the
SettingsManager singleton's current settings. -/
def turn_on_lights (st : Settings) (_ : LightingState) : LightingState × String :=
  (⟨st.default_brightness, true⟩, "Lights turned on")

/-- `LightingSystem.turn_off_lights`. -/
def turn_off_lights (_ : LightingState) : LightingState × String :=
  (⟨0, false⟩, "Lights turned off")

/-- The `SmartHomeFacade` state reachable from `VoiceControl`: the
lighting and security subsystems and the settings singleton's current
dictionary. -/
structure SmartHomeState where
  lighting : LightingState
  security : SecurityState
  settings : Settings
deriving DecidableEq, Repr

/-- `SmartHomeFacade.activate_security_system`. -/
def activate_security_system (h : SmartHomeState) : SmartHomeState × String :=
  let r := arm_system h.security
  ({ h with security := r.1 }, r.2)

/-- `SmartHomeFacade.deactivate_security_system`. -/
def deactivate_security_system (h : SmartHomeState) : SmartHomeState × String :=
  let r := disarm_system h.security
  ({ h with security := r.1 }, r.2)

/-- `SmartHomeFacade.control_lighting("ON")`. -/
def facadeLightOn (h : SmartHomeState) : SmartHomeState × String :=
  let r := turn_on_lights h.settings h.lighting
  ({ h with lighting := r.1 }, r.2)

/-- `SmartHomeFacade.control_lighting("OFF")`. -/
def facadeLightOff (h : SmartHomeState) : SmartHomeState × String :=
  let r := turn_off_lights h.lighting
  ({ h with lighting := r.1 }, r.2)

/-- Python's `needle in haystack` prefix step: does `needle` start
`haystack`? -/
def strStarts : List Char → List Char → Bool
  | [], _ => true
  | _ :: _, [] => false
  | c :: cs, d :: ds => decide (c = d) && strStarts cs ds

/-- Python's substring containment `needle in haystack` on lists of
characters. -/
def strHas (needle : List Char) : List Char → Bool
  | [] => needle.isEmpty
  | d :: ds => strStarts needle (d :: ds) || strHas needle ds

/-- `VoiceControl.process_command` from src/main.py: lowercase the
command, branch on the substrings "light" / "security" and the inner
keywords, fall through to "Command not recognized". -/
def process_command (h : SmartHomeState) (cmd : String) : SmartHomeState × String :=
  let c := cmd.toList.map Char.toLower
  if strHas "light".toList c then
    if strHas "on".toList c then facadeLightOn h
    else if strHas "off".toList c then facadeLightOff h
    else (h, "Command not recognized")
  else if strHas "security".toList c then
    if strHas "activate".toList c then activate_security_system h
    else if strHas "deactivate".toList c then deactivate_security_system h
    else (h, "Command not recognized")
  else (h, "Command not recognized")

/-- The three `SecuritySystem` operations, for reasoning about call
sequences. -/
inductive SecOp
  | arm
  | disarm
  | trigger
deriving DecidableEq, Repr

/-- State transition of one `SecuritySystem` call. -/
def secStep (s : SecurityState) : SecOp → SecurityState
  | .arm => (arm_system s).1
  | .disarm => (disarm_system s).1
  | .trigger => (trigger_alarm s).1

/-- `SecuritySystem` state after a sequence of calls from the initial
state. -/
def runSec (ops : List SecOp) : SecurityState :=
  ops.foldl secStep securityInit

end Home

open Chess Home

set_option linter.unusedVariables false

section Helpers

/-- A successful Piece.move returns exactly the input piece with position,
move_count and rule position updated. -/
theorem piece_move_ok_eq (pc : Piece) (newPos : Position) (pc' : Piece)
    (h : pc.move newPos = Except.ok pc') :
    pc' = { pc with position := newPos, move_count := pc.move_count + 1, rulePos := newPos } := by
  rw [Piece.move] at h
  split at h
  · simp at h
  · split at h
    · injection h with h1
      exact h1.symm
    · simp at h

/-- Lookup on a cons cell. -/
theorem boardFind_cons (e : Position × Piece) (t : Board) (pos : Position) :
    boardFind (e :: t) pos = if e.1 = pos then some e.2 else boardFind t pos := by
  by_cases h : e.1 = pos
  · rw [boardFind, List.find?_cons_of_pos _ (by simp [h]), if_pos h]
    rfl
  · rw [boardFind, List.find?_cons_of_neg _ (by simp [h]), if_neg h]
    rfl

/-- Erasing a different key does not change a lookup. -/
theorem boardFind_erase_ne (b : Board) (s pos : Position) (h : pos ≠ s) :
    boardFind (boardErase b s) pos = boardFind b pos := by
  induction b with
  | nil => rfl
  | cons e t ih =>
    by_cases he : e.1 = s
    · have hne : e.1 ≠ pos := fun hp => h (hp ▸ he)
      rw [boardErase, List.filter_cons, if_neg (by simp [he]), boardFind_cons, if_neg hne]
      exact ih
    · rw [boardErase, List.filter_cons, if_pos (by simp [he]), boardFind_cons, boardFind_cons]
      by_cases hp : e.1 = pos
      · rw [if_pos hp, if_pos hp]
      · rw [if_neg hp, if_neg hp]
        exact ih

/-- Inserting at a key makes that key map to the inserted piece. -/
theorem boardFind_insert_self (b : Board) (pos : Position) (pc : Piece) :
    boardFind (boardInsert b pos pc) pos = some pc := by
  rw [boardInsert, boardFind_cons, if_pos rfl]

/-- Inserting at a different key does not change a lookup. -/
theorem boardFind_insert_ne (b : Board) (pos q : Position) (pc : Piece) (h : q ≠ pos) :
    boardFind (boardInsert b pos pc) q = boardFind b q := by
  rw [boardInsert, boardFind_cons, if_neg (fun hp => h hp.symm)]
  exact boardFind_erase_ne b pos q h

/-- Membership after erasing implies membership before. -/
theorem mem_of_mem_boardErase (b : Board) (s : Position) (e : Position × Piece)
    (h : e ∈ boardErase b s) : e ∈ b :=
  List.mem_of_mem_filter h

end Helpers

/-- C1: for every piece kind, color and in-range current position, every
position returned by candidate_moves lies in [1,8]×[1,8]: out-of-board
geometric candidates are filtered out rather than raising an error. -/
theorem candidate_moves_in_range (k : PieceKind) (c : Color) (p : Position)
    (hp : in_range p = true) :
    ∀ q ∈ candidate_moves k c p, in_range q = true := by
  intro q hq
  exact (List.mem_filter.mp hq).2

/-- Witness for C1 at the Knight on (4,4) and its candidate (6,5). -/
theorem candidate_moves_in_range_witness :
    in_range ((6 : Int), (5 : Int)) = true :=
  candidate_moves_in_range .Knight .White (4, 4) (by decide) (6, 5) (by decide)

/-- C2: move_piece fails with NoPieceAtSource when the source is empty,
propagates the error of Piece.move unchanged, and on every failure the
resulting board — as observed through enumerate — is exactly the input
board. -/
theorem move_piece_failure_atomic (b : Board) (src dst : Position) :
    (boardFind b src = none →
      move_piece b src dst = (b, some MoveError.NoPieceAtSource)) ∧
    (∀ pc e, boardFind b src = some pc → pc.move dst = Except.error e →
      move_piece b src dst = (b, some e)) ∧
    (∀ e, (move_piece b src dst).2 = some e →
      enumerate (move_piece b src dst).1 = enumerate b) := by
  refine ⟨?_, ?_, ?_⟩
  · intro h
    simp [move_piece, h]
  · intro pc e h1 h2
    simp [move_piece, h1, h2]
  · intro e he
    rcases hf : boardFind b src with _ | pc
    · simp [move_piece, hf]
    · rcases hm : pc.move dst with e' | pc'
      · simp [move_piece, hf, hm]
      · exfalso
        simp [move_piece, hf, hm] at he

/-- Witness for C2 on the empty board. -/
theorem move_piece_failure_atomic_witness :
    move_piece [] (1, 1) (2, 2) = ([], some MoveError.NoPieceAtSource) :=
  (move_piece_failure_atomic [] (1, 1) (2, 2)).1 rfl

/-- C4: the Knight's candidate set from (4,4) is, as a set, exactly the 8
positions obtained by the offsets (±2,±1) and (±1,±2). -/
theorem knight_at_44_set (c : Color) (q : Position) :
    q ∈ candidate_moves .Knight c (4, 4) ↔
      q ∈ ([(6,5), (6,3), (2,5), (2,3), (5,6), (5,2), (3,6), (3,2)] : List Position) := by
  have h : candidate_moves .Knight c (4, 4) =
      [(6,5), (6,3), (2,5), (2,3), (5,6), (5,2), (3,6), (3,2)] := by
    cases c <;> decide
  rw [h]

/-- C5: from every in-range position, the Queen's candidate set is the
union of the Rook's and the Bishop's candidate sets from that position. -/
theorem queen_is_rook_union_bishop (c : Color) (p : Position)
    (hp : in_range p = true) (q : Position) :
    q ∈ candidate_moves .Queen c p ↔
      (q ∈ candidate_moves .Rook c p ∨ q ∈ candidate_moves .Bishop c p) := by
  simp only [candidate_moves, rawMoves, List.filter_append, List.mem_append]

/-- Witness for C5 at (4,4) and the diagonal candidate (1,1). -/
theorem queen_is_rook_union_bishop_witness :
    ((1, 1) ∈ candidate_moves .Queen .White (4, 4) ↔
      ((1, 1) ∈ candidate_moves .Rook .White (4, 4) ∨
        (1, 1) ∈ candidate_moves .Bishop .White (4, 4))) :=
  queen_is_rook_union_bishop .White (4, 4) (by decide) (1, 1)

/-- Membership in the Pawn's raw generation: the one-step forward square,
plus the two-step square exactly on the starting rank. -/
theorem pawnRaw_mem (c : Color) (p q : Position) :
    q ∈ pawnRaw c p ↔
      (q = (p.1 + pawnDir c, p.2) ∨
        (p.1 = pawnStartRank c ∧ q = (p.1 + 2 * pawnDir c, p.2))) := by
  rw [pawnRaw]
  by_cases h : p.1 = pawnStartRank c <;> simp [h]

/-- C3: a White Pawn at (2,5) that never moved has candidates
[(3,5),(4,5)]; after one successful move to (3,5) its candidates are
[(4,5)] only; and in general the Pawn's candidate set holds the one-step
forward square, plus the two-step square exactly on the color's starting
rank, each subject to the bounds filter. -/
theorem pawn_candidate_spec (c : Color) (p q : Position) :
    (candidate_moves .Pawn .White (2, 5) = [(3, 5), (4, 5)]) ∧
    ((mkPiece .Pawn .White (2, 5)).move (3, 5) =
      Except.ok ⟨.Pawn, .White, (3, 5), 1, (3, 5)⟩) ∧
    (candidate_moves .Pawn .White (3, 5) = [(4, 5)]) ∧
    (q ∈ candidate_moves .Pawn c p ↔
      ((q = (p.1 + pawnDir c, p.2) ∨
          (p.1 = pawnStartRank c ∧ q = (p.1 + 2 * pawnDir c, p.2))) ∧
        in_range q = true)) := by
  refine ⟨by decide, by rfl, by decide, ?_⟩
  simp only [candidate_moves, rawMoves, List.mem_filter, pawnRaw_mem]

/-- C6: the piece/rule position synchronization invariant: a successful
Piece.move sets both the position and the rule's internal position to the
new position; move_piece preserves the invariant board-wide; and the
standard starting board satisfies it. -/
theorem piece_rule_position_sync :
    (∀ (pc : Piece) (newPos : Position) (pc' : Piece),
        pc.move newPos = Except.ok pc' →
        pc'.position = newPos ∧ pc'.rulePos = newPos ∧ pc'.position = pc'.rulePos) ∧
    (∀ (b : Board) (src dst : Position),
        (∀ e ∈ b, e.2.position = e.2.rulePos) →
        ∀ e ∈ (move_piece b src dst).1, e.2.position = e.2.rulePos) ∧
    (∀ e ∈ standard_board, e.2.position = e.2.rulePos) := by
  refine ⟨?_, ?_, by decide⟩
  · intro pc newPos pc' h
    rw [piece_move_ok_eq pc newPos pc' h]
    exact ⟨rfl, rfl, rfl⟩
  · intro b src dst hb e he
    rcases hf : boardFind b src with _ | pc
    · simp only [move_piece, hf] at he
      exact hb e he
    · rcases hm : pc.move dst with e' | pc'
      · simp only [move_piece, hf, hm] at he
        exact hb e he
      · simp only [move_piece, hf, hm, boardInsert] at he
        rcases List.mem_cons.mp he with h1 | h2
        · rw [h1, piece_move_ok_eq pc dst pc' hm]
        · exact hb e (mem_of_mem_boardErase _ _ _ (mem_of_mem_boardErase _ _ _ h2))

/-- Witness for C6: the pawn move from (2,5) to (3,5) resynchronizes the
rule position. -/
theorem piece_rule_position_sync_witness :
    (⟨PieceKind.Pawn, Color.White, (3, 5), 1, (3, 5)⟩ : Piece).position = (3, 5) ∧
    (⟨PieceKind.Pawn, Color.White, (3, 5), 1, (3, 5)⟩ : Piece).rulePos = (3, 5) ∧
    (⟨PieceKind.Pawn, Color.White, (3, 5), 1, (3, 5)⟩ : Piece).position =
      (⟨PieceKind.Pawn, Color.White, (3, 5), 1, (3, 5)⟩ : Piece).rulePos :=
  piece_rule_position_sync.1 (mkPiece .Pawn .White (2, 5)) (3, 5)
    ⟨.Pawn, .White, (3, 5), 1, (3, 5)⟩ rfl

/-- C7: a successful move_piece maps the destination to the source piece
with move_count incremented by exactly 1; lookups away from source and
destination are untouched; and on any failure the whole board is exactly
the input board, so no piece's move_count changes. -/
theorem move_count_increment_spec (b : Board) (src dst : Position) :
    (∀ pc, boardFind b src = some pc → (move_piece b src dst).2 = none →
      boardFind (move_piece b src dst).1 dst =
        some { pc with position := dst, move_count := pc.move_count + 1, rulePos := dst }) ∧
    (∀ pos, pos ≠ src → pos ≠ dst →
      boardFind (move_piece b src dst).1 pos = boardFind b pos) ∧
    (∀ e, (move_piece b src dst).2 = some e → (move_piece b src dst).1 = b) := by
  refine ⟨?_, ?_, ?_⟩
  · intro pc hf hs
    rcases hm : pc.move dst with e' | pc'
    · exfalso
      simp [move_piece, hf, hm] at hs
    · simp only [move_piece, hf, hm]
      rw [boardFind_insert_self, piece_move_ok_eq pc dst pc' hm]
  · intro pos hsrc hdst
    rcases hf : boardFind b src with _ | pc
    · simp [move_piece, hf]
    · rcases hm : pc.move dst with e' | pc'
      · simp [move_piece, hf, hm]
      · simp only [move_piece, hf, hm]
        rw [boardFind_insert_ne _ _ _ _ hdst, boardFind_erase_ne _ _ _ hsrc]
  · intro e he
    rcases hf : boardFind b src with _ | pc
    · simp [move_piece, hf]
    · rcases hm : pc.move dst with e' | pc'
      · simp [move_piece, hf, hm]
      · exfalso
        simp [move_piece, hf, hm] at he

/-- Witness for C7: moving the lone pawn of a one-piece board from (2,5)
to (3,5) yields move_count 1 at the destination. -/
theorem move_count_increment_spec_witness :
    boardFind (move_piece [((2, 5), mkPiece .Pawn .White (2, 5))] (2, 5) (3, 5)).1 (3, 5) =
      some ⟨PieceKind.Pawn, Color.White, (3, 5), 1, (3, 5)⟩ :=
  (move_count_increment_spec [((2, 5), mkPiece .Pawn .White (2, 5))] (2, 5) (3, 5)).1
    (mkPiece .Pawn .White (2, 5)) rfl rfl

/-- C8: SettingsManager and EnergyManager are per-class singletons: the
first construction installs the defaults and stores the instance, every
construction yields an initialized instance, and re-construction of an
initialized instance returns it unchanged — settings and energy state
survive repeated construction. -/
theorem managers_are_singletons :
    (settingsManagerCtor none =
      (some ⟨some defaultSettings, true⟩, ⟨some defaultSettings, true⟩)) ∧
    (∀ slot, (settingsManagerCtor slot).2.initialized = true) ∧
    (∀ s : SettingsManagerState, s.initialized = true →
      settingsManagerCtor (some s) = (some s, s)) ∧
    (energyManagerCtor none = (some ⟨some 0, some [], true⟩, ⟨some 0, some [], true⟩)) ∧
    (∀ slot, (energyManagerCtor slot).2.initialized = true) ∧
    (∀ s : EnergyManagerState, s.initialized = true →
      energyManagerCtor (some s) = (some s, s)) := by
  refine ⟨rfl, ?_, ?_, rfl, ?_, ?_⟩
  · intro slot
    rcases slot with _ | s
    · rfl
    · by_cases h : s.initialized
      · simp [settingsManagerCtor, settingsManagerNew, settingsManagerInit, h]
      · simp [settingsManagerCtor, settingsManagerNew, settingsManagerInit, h]
  · intro s h
    simp [settingsManagerCtor, settingsManagerNew, settingsManagerInit, h]
  · intro slot
    rcases slot with _ | s
    · rfl
    · by_cases h : s.initialized
      · simp [energyManagerCtor, energyManagerNew, energyManagerInit, h]
      · simp [energyManagerCtor, energyManagerNew, energyManagerInit, h]
  · intro s h
    simp [energyManagerCtor, energyManagerNew, energyManagerInit, h]

/-- Witness for C8: re-constructing SettingsManager over an initialized
instance with modified settings returns exactly that instance. -/
theorem managers_are_singletons_witness :
    settingsManagerCtor (some ⟨some ⟨99, 10, true⟩, true⟩) =
      (some ⟨some ⟨99, 10, true⟩, true⟩, ⟨some ⟨99, 10, true⟩, true⟩) :=
  managers_are_singletons.2.2.1 ⟨some ⟨99, 10, true⟩, true⟩ rfl

/-- If `needle` starts `l`, then `l` contains `needle`. -/
theorem strHas_of_strStarts (needle l : List Char)
    (h : strStarts needle l = true) : strHas needle l = true := by
  cases l with
  | nil =>
    cases needle with
    | nil => rfl
    | cons c cs => simp [strStarts] at h
  | cons d ds =>
    simp [strHas, h]

/-- If `pre ++ needle` starts `l`, then `l` contains `needle`. -/
theorem strHas_of_starts_append (pre needle : List Char) :
    ∀ l, strStarts (pre ++ needle) l = true → strHas needle l = true := by
  induction pre with
  | nil =>
    intro l h
    exact strHas_of_strStarts needle l h
  | cons p ps ih =>
    intro l h
    cases l with
    | nil => simp [strStarts] at h
    | cons d ds =>
      simp only [List.cons_append, strStarts, Bool.and_eq_true] at h
      have hds := ih ds h.2
      rw [strHas]
      simp [hds]

/-- Containment of `pre ++ needle` implies containment of `needle`. -/
theorem strHas_drop_front (pre needle : List Char) (l : List Char)
    (h : strHas (pre ++ needle) l = true) : strHas needle l = true := by
  induction l with
  | nil =>
    rw [strHas] at h ⊢
    cases pre with
    | nil => exact h
    | cons p ps => simp at h
  | cons d ds ih =>
    rw [strHas] at h ⊢
    rw [Bool.or_eq_true] at h
    rcases h with hs | hh
    · have := strHas_of_starts_append pre needle (d :: ds) hs
      rw [strHas] at this
      exact this
    · simp [ih hh]

/-- Any character list containing "deactivate" contains "activate". -/
theorem strHas_activate_of_deactivate (l : List Char)
    (h : strHas "deactivate".toList l = true) :
    strHas "activate".toList l = true := by
  have hsplit : "deactivate".toList = "de".toList ++ "activate".toList := by decide
  rw [hsplit] at h
  exact strHas_drop_front "de".toList "activate".toList l h

/-- C9: on any input whose lowercase form contains "security", does not
contain "light", and contains "activate", process_command arms the
security system and answers "Security system armed"; containing
"deactivate" entails containing "activate"; hence the disarm branch is
unreachable — no input ever yields "Security system disarmed". -/
theorem voice_activate_shadows_deactivate (h : SmartHomeState) (cmd : String)
    (hsec : strHas "security".toList (cmd.toList.map Char.toLower) = true)
    (hlight : strHas "light".toList (cmd.toList.map Char.toLower) = false)
    (hact : strHas "activate".toList (cmd.toList.map Char.toLower) = true) :
    (process_command h cmd =
      ({ h with security := { h.security with armed := true } }, "Security system armed")) ∧
    (∀ l : List Char, strHas "deactivate".toList l = true →
      strHas "activate".toList l = true) ∧
    (∀ (h2 : SmartHomeState) (cmd2 : String),
      (process_command h2 cmd2).2 ≠ "Security system disarmed") := by
  refine ⟨?_, strHas_activate_of_deactivate, ?_⟩
  · simp only [process_command]
    rw [if_neg (by rw [hlight]; exact Bool.false_ne_true), if_pos hsec, if_pos hact]
    rfl
  · intro h2 cmd2
    simp only [process_command]
    by_cases h1 : strHas "light".toList (cmd2.toList.map Char.toLower) = true
    · rw [if_pos h1]
      by_cases hon : strHas "on".toList (cmd2.toList.map Char.toLower) = true
      · rw [if_pos hon]
        exact fun hc => absurd hc (by show ¬("Lights turned on" = "Security system disarmed"); decide)
      · rw [if_neg hon]
        by_cases hoff : strHas "off".toList (cmd2.toList.map Char.toLower) = true
        · rw [if_pos hoff]
          exact fun hc => absurd hc (by show ¬("Lights turned off" = "Security system disarmed"); decide)
        · rw [if_neg hoff]
          exact fun hc => absurd hc (by show ¬("Command not recognized" = "Security system disarmed"); decide)
    · rw [if_neg h1]
      by_cases hs : strHas "security".toList (cmd2.toList.map Char.toLower) = true
      · rw [if_pos hs]
        by_cases ha : strHas "activate".toList (cmd2.toList.map Char.toLower) = true
        · rw [if_pos ha]
          exact fun hc => absurd hc (by show ¬("Security system armed" = "Security system disarmed"); decide)
        · by_cases hd : strHas "deactivate".toList (cmd2.toList.map Char.toLower) = true
          · exact absurd (strHas_activate_of_deactivate _ hd) ha
          · rw [if_neg ha, if_neg hd]
            exact fun hc => absurd hc (by show ¬("Command not recognized" = "Security system disarmed"); decide)
      · rw [if_neg hs]
        exact fun hc => absurd hc (by show ¬("Command not recognized" = "Security system disarmed"); decide)

/-- Witness for C9 on the command "deactivate security" from the fresh
facade state: the system is armed, not disarmed. -/
theorem voice_activate_shadows_deactivate_witness :
    process_command ⟨⟨0, false⟩, ⟨false, false⟩, defaultSettings⟩ "deactivate security" =
      (⟨⟨0, false⟩, ⟨true, false⟩, defaultSettings⟩, "Security system armed") :=
  (voice_activate_shadows_deactivate ⟨⟨0, false⟩, ⟨false, false⟩, defaultSettings⟩
    "deactivate security" (by decide) (by decide) (by decide)).1

/-- One SecuritySystem call preserves the alarm-implies-armed invariant. -/
theorem secStep_preserves_inv (s : SecurityState) (op : SecOp)
    (h : s.alarm_active = true → s.armed = true) :
    (secStep s op).alarm_active = true → (secStep s op).armed = true := by
  cases op with
  | arm => intro _; rfl
  | disarm => intro hc; simp [secStep, disarm_system] at hc
  | trigger =>
    by_cases ha : s.armed = true
    · intro _
      simp [secStep, trigger_alarm, ha]
    · simp only [Bool.not_eq_true] at ha
      have halarm : s.alarm_active = false := by
        cases hh : s.alarm_active
        · rfl
        · exact absurd (h hh) (by simp [ha])
      simp [secStep, trigger_alarm, ha, halarm]

/-- The invariant survives any foldl of SecuritySystem calls. -/
theorem foldl_secStep_inv (ops : List SecOp) :
    ∀ s : SecurityState, (s.alarm_active = true → s.armed = true) →
      ((ops.foldl secStep s).alarm_active = true → (ops.foldl secStep s).armed = true) := by
  induction ops with
  | nil => intro s h; exact h
  | cons op t ih =>
    intro s h
    exact ih (secStep s op) (secStep_preserves_inv s op h)

/-- C10: from the initial SecuritySystem state, every sequence of
arm/disarm/trigger calls preserves alarm_active → armed: trigger_alarm
raises the alarm only when armed (answering "ALARM TRIGGERED!"), leaves
the state untouched otherwise (answering "System is not armed"), and
disarm_system clears both flags. -/
theorem security_alarm_invariant (ops : List SecOp) (s : SecurityState) :
    ((runSec ops).alarm_active = true → (runSec ops).armed = true) ∧
    (s.armed = true → trigger_alarm s = ({ s with alarm_active := true }, "ALARM TRIGGERED!")) ∧
    (s.armed = false → trigger_alarm s = (s, "System is not armed")) ∧
    (disarm_system s = (⟨false, false⟩, "Security system disarmed")) := by
  refine ⟨foldl_secStep_inv ops securityInit (by simp [securityInit]), ?_, ?_, rfl⟩
  · intro h
    simp [trigger_alarm, h]
  · intro h
    simp [trigger_alarm, h]

/-- Witness for C10: triggering while armed raises the alarm; triggering
while unarmed changes nothing. -/
theorem security_alarm_invariant_witness :
    trigger_alarm ⟨true, false⟩ = (⟨true, true⟩, "ALARM TRIGGERED!") ∧
    trigger_alarm ⟨false, false⟩ = (⟨false, false⟩, "System is not armed") :=
  ⟨(security_alarm_invariant [] ⟨true, false⟩).2.1 rfl,
    (security_alarm_invariant [] ⟨false, false⟩).2.2.1 rfl⟩
